import Mathlib

/-!
Verification of the `ulm` command-line assistant (Rust) against its
natural-language specification.

Modelling conventions.

* Rust `String`/`&str` values that undergo byte-index arithmetic are
  modelled as `Str := List Nat`, a sequence of Unicode scalar values
  (which is exactly what a Rust string is, semantically).  Rust's
  `str::len()` counts UTF-8 code units, modelled by `byteLen`
  (the sum of each scalar's UTF-8 encoded size).  The source's
  "decrement a byte index until `is_char_boundary`" loops compute, on a
  valid UTF-8 string, the longest whole-character prefix whose UTF-8
  size fits the byte budget; that prefix is `takeBytes`.
* Rust strings that are only compared or stored (model names, tool
  names, paths) are modelled as Lean `String`.
* Effectful code (HTTP calls, the vector store, the file system) is
  modelled by explicit oracle environments; functions return their
  result together with a trace of the externally visible calls they
  issue, in order.
* `anyhow` errors are modelled by an inductive with one constructor per
  `bail!`/error site, carrying the formatted arguments.
* Rust's `char::is_whitespace` (the Unicode `White_Space` property, a
  fixed set of 25 scalars) is modelled exactly.  `char::is_uppercase`
  (Unicode `Lu`, a large table) is kept as a parameter `isUpper`;
  theorems quantify over it, and witnesses instantiate it with the
  ASCII uppercase test.
-/

set_option maxRecDepth 40000

/-- A Rust string, as its sequence of Unicode scalar values. -/
abbrev Str := List Nat

/-- The scalar values of a Lean string literal (used to transcribe the
Rust source's string literals). -/
def strRunes (s : String) : Str := s.data.map Char.toNat

/-- UTF-8 encoded size of one Unicode scalar value, in bytes
(Rust `char::len_utf8`). -/
def utf8Len (c : Nat) : Nat :=
  if c < 0x80 then 1 else if c < 0x800 then 2 else if c < 0x10000 then 3 else 4

/-- Rust `str::len()`: the UTF-8 byte length of a string. -/
def byteLen (s : Str) : Nat := (s.map utf8Len).sum

/-- Longest whole-character prefix whose UTF-8 byte length is at most
`budget`.  This is what the source's boundary-decrement loops
(`while !text.is_char_boundary(end) && end > 0 { end -= 1 }` followed by
`&text[..end]`) produce on a valid UTF-8 string. -/
def takeBytes : Str → Nat → Str
  | [], _ => []
  | c :: cs, budget =>
    if utf8Len c ≤ budget then c :: takeBytes cs (budget - utf8Len c) else []

theorem utf8Len_pos (c : Nat) : 0 < utf8Len c := by
  unfold utf8Len; split <;> try split <;> try split
  all_goals simp

theorem byteLen_nil : byteLen [] = 0 := rfl

theorem byteLen_cons (c : Nat) (s : Str) :
    byteLen (c :: s) = utf8Len c + byteLen s := by
  simp [byteLen]

theorem byteLen_append (a b : Str) :
    byteLen (a ++ b) = byteLen a + byteLen b := by
  induction a with
  | nil => simp [byteLen]
  | cons c cs ih => simp [byteLen_cons, ih]; ring

theorem byteLen_takeBytes_le (s : Str) (budget : Nat) :
    byteLen (takeBytes s budget) ≤ budget := by
  induction s generalizing budget with
  | nil => simp [takeBytes, byteLen]
  | cons c cs ih =>
    simp only [takeBytes]
    split
    · rename_i h
      have := ih (budget - utf8Len c)
      rw [byteLen_cons]
      omega
    · simp [byteLen]

theorem takeBytes_append_eq (s : Str) (budget : Nat) :
    ∃ rest, takeBytes s budget ++ rest = s := by
  induction s generalizing budget with
  | nil => exact ⟨[], rfl⟩
  | cons c cs ih =>
    simp only [takeBytes]
    split
    · obtain ⟨rest, hrest⟩ := ih (budget - utf8Len c)
      exact ⟨rest, by simp [hrest]⟩
    · exact ⟨c :: cs, rfl⟩

theorem byteLen_replicate_ascii (n c : Nat) (h : c < 0x80) :
    byteLen (List.replicate n c) = n := by
  induction n with
  | zero => rfl
  | succ k ih =>
    rw [List.replicate_succ, byteLen_cons, ih]
    simp [utf8Len, h]
    omega

/-! ## Prompt builder (`src/llm/prompt.rs`) -/

/-- `SYSTEM_INSTRUCTIONS` from `src/llm/prompt.rs`, transcribed verbatim
(braces and apostrophes written as `\x7b`, `\x7d`, `\x27` escapes). -/
def SYSTEM_INSTRUCTIONS : Str := strRunes "You are a command-line expert assistant. Your task is to suggest relevant commands based on the user\x27s query and the provided manpage documentation.\n\nAnalyze the manpage content and generate practical command suggestions that solve the user\x27s problem. Consider the working directory context when suggesting commands.\n\nIMPORTANT: Respond ONLY with valid JSON in the following format:\n\x7b\n  \"suggestions\": [\n    \x7b\n      \"command\": \"the exact command to run\",\n      \"title\": \"brief title (3-5 words)\",\n      \"explanation\": \"why this command helps and what it does\",\n      \"risk_level\": \"safe|moderate|destructive\"\n    \x7d\n  ]\n\x7d\n\nRisk levels:\n- \"safe\": Read-only operations, no side effects\n- \"moderate\": Modifies files but recoverable (e.g., creates/edits files)\n- \"destructive\": Irreversible operations (e.g., rm -rf, force push)\n\nProvide 1-3 command suggestions, ordered by relevance. If the query cannot be answered with the provided manpage, respond with an empty suggestions array."

/-- `MAX_PROMPT_LENGTH` from `src/llm/prompt.rs`. -/
def MAX_PROMPT_LENGTH : Nat := 48000

/-- The fixed text between the system instructions and the context
region of the prompt template. -/
def SEP_CONTEXT : Str := strRunes "\n\n---\n\n## Context\n\n"

/-- The fixed text between the context and manpage regions. -/
def SEP_MANPAGE : Str := strRunes "\n\n---\n\n## Manpage Content\n\n"

/-- The fixed text between the manpage and user-query regions. -/
def SEP_QUERY : Str := strRunes "\n\n---\n\n## User Query\n\n"

/-- The fixed trailer after the user query. -/
def SEP_TRAILER : Str := strRunes "\n\n---\n\nRespond with JSON only:"

/-- The marker inserted after a truncated manpage region (with the two
newlines that precede it in the second format string). -/
def TRUNC_MARKER : Str := strRunes "\n\n[Content truncated for length]"

/-- `truncate_at_boundary` from `src/llm/prompt.rs`: truncates text at a
safe UTF-8 boundary (returns the text unchanged when it fits). -/
def truncate_at_boundary (text : Str) (max_len : Nat) : Str :=
  if byteLen text ≤ max_len then text else takeBytes text max_len

/-- `build_prompt` from `src/llm/prompt.rs`.  The context argument is
the string produced by `DirectoryContext::format_for_prompt` (that
function's body is not present in the source snapshot, so its output is
taken as an arbitrary string here). -/
def build_prompt (query manpage_content context_str : Str) : Str :=
  let prompt := SYSTEM_INSTRUCTIONS ++ SEP_CONTEXT ++ context_str ++ SEP_MANPAGE ++
    manpage_content ++ SEP_QUERY ++ query ++ SEP_TRAILER
  if byteLen prompt > MAX_PROMPT_LENGTH then
    let overhead := byteLen prompt - byteLen manpage_content
    let max_content := MAX_PROMPT_LENGTH - overhead - 100
    let truncated_content := truncate_at_boundary manpage_content max_content
    SYSTEM_INSTRUCTIONS ++ SEP_CONTEXT ++ context_str ++ SEP_MANPAGE ++
      truncated_content ++ TRUNC_MARKER ++ SEP_QUERY ++ query ++ SEP_TRAILER
  else prompt

/-- The total UTF-8 length of everything in the prompt other than the
manpage region: system instructions, separators, context and query. -/
def prompt_overhead (query context_str : Str) : Nat :=
  byteLen SYSTEM_INSTRUCTIONS + byteLen SEP_CONTEXT + byteLen context_str +
    byteLen SEP_MANPAGE + byteLen SEP_QUERY + byteLen query + byteLen SEP_TRAILER

theorem byteLen_truncate_at_boundary_le (text : Str) (max_len : Nat) :
    byteLen (truncate_at_boundary text max_len) ≤ max_len := by
  unfold truncate_at_boundary
  split
  · assumption
  · exact byteLen_takeBytes_le text max_len

theorem build_prompt_def (query manpage_content context_str : Str) :
    build_prompt query manpage_content context_str =
      (if byteLen (SYSTEM_INSTRUCTIONS ++ SEP_CONTEXT ++ context_str ++ SEP_MANPAGE ++
          manpage_content ++ SEP_QUERY ++ query ++ SEP_TRAILER) > MAX_PROMPT_LENGTH then
        SYSTEM_INSTRUCTIONS ++ SEP_CONTEXT ++ context_str ++ SEP_MANPAGE ++
          truncate_at_boundary manpage_content
            (MAX_PROMPT_LENGTH -
              (byteLen (SYSTEM_INSTRUCTIONS ++ SEP_CONTEXT ++ context_str ++ SEP_MANPAGE ++
                manpage_content ++ SEP_QUERY ++ query ++ SEP_TRAILER) -
               byteLen manpage_content) - 100) ++
          TRUNC_MARKER ++ SEP_QUERY ++ query ++ SEP_TRAILER
      else
        SYSTEM_INSTRUCTIONS ++ SEP_CONTEXT ++ context_str ++ SEP_MANPAGE ++
          manpage_content ++ SEP_QUERY ++ query ++ SEP_TRAILER) := rfl

theorem byteLen_build_prompt_ge_query (query manpage_content context_str : Str) :
    byteLen query ≤ byteLen (build_prompt query manpage_content context_str) := by
  rw [build_prompt_def]
  split <;> simp only [byteLen_append] <;> omega

/-- C5 counterexample: the claim "for all inputs, the prompt built by
`build_prompt` is at most 48 100 code units" fails: only the manpage
region is ever truncated, so a 48 101-unit query alone already pushes
the prompt above the bound. -/
theorem build_prompt_exceeds_budget_on_long_query :
    48100 < byteLen (build_prompt (List.replicate 48101 120) [] []) := by
  have h1 := byteLen_build_prompt_ge_query (List.replicate 48101 120) [] []
  have h2 : byteLen (List.replicate 48101 120) = 48101 :=
    byteLen_replicate_ascii 48101 120 (by norm_num)
  omega

/-- C5 (amended): whenever the regions other than the manpage content
(system instructions, separators, context block and query) total at
most 48 068 code units, the prompt built by `build_prompt` is at most
48 100 code units; the truncation applies only to the manpage region,
so an oversized query or context can exceed the bound. -/
theorem build_prompt_within_budget (query manpage_content context_str : Str)
    (h : prompt_overhead query context_str ≤ 48068) :
    byteLen (build_prompt query manpage_content context_str) ≤ 48100 := by
  unfold prompt_overhead at h
  rw [build_prompt_def]
  split
  · have ht := byteLen_truncate_at_boundary_le manpage_content
      (MAX_PROMPT_LENGTH -
        (byteLen (SYSTEM_INSTRUCTIONS ++ SEP_CONTEXT ++ context_str ++ SEP_MANPAGE ++
          manpage_content ++ SEP_QUERY ++ query ++ SEP_TRAILER) -
         byteLen manpage_content) - 100)
    have hm : byteLen TRUNC_MARKER = 32 := by decide
    simp only [byteLen_append, MAX_PROMPT_LENGTH] at ht ⊢
    omega
  · rename_i hle
    simp only [gt_iff_lt, not_lt, MAX_PROMPT_LENGTH] at hle
    omega

/-- C5 witness: the budget bound applied at a concrete small input. -/
theorem build_prompt_within_budget_witness :
    byteLen (build_prompt (strRunes "find large files") (strRunes "FIND(1) find files")
      (strRunes "Project type: Rust")) ≤ 48100 :=
  build_prompt_within_budget _ _ _ (by decide)

/-! ## Manpage parsing (`src/setup/index.rs`, `ManpageScanner`) -/

/-- Rust `char::is_whitespace`: the Unicode `White_Space` property
(25 scalar values, listed exhaustively). -/
def rust_is_whitespace (c : Nat) : Bool :=
  c == 0x09 || c == 0x0A || c == 0x0B || c == 0x0C || c == 0x0D || c == 0x20 ||
  c == 0x85 || c == 0xA0 || c == 0x1680 || (0x2000 ≤ c && c ≤ 0x200A) ||
  c == 0x2028 || c == 0x2029 || c == 0x202F || c == 0x205F || c == 0x3000

/-- Rust `str::trim`: strip leading and trailing whitespace characters. -/
def rust_trim (s : Str) : Str :=
  ((s.dropWhile rust_is_whitespace).reverse.dropWhile rust_is_whitespace).reverse

/-- Split a string at every newline (`\n`) scalar. -/
def splitNl (s : Str) : List Str := s.splitOn 0x0A

/-- Rust `str::lines`: split at `\n`, dropping one trailing `\r` from
each line, with no final empty line when the text ends in `\n`. -/
def rust_lines (s : Str) : List Str :=
  if s = [] then []
  else
    let segs := splitNl s
    let segs := if s.getLast? = some 0x0A then segs.dropLast else segs
    segs.map fun l => if l.getLast? = some 0x0D then l.dropLast else l

/-- ASCII uppercase mapping, used to model `str::to_uppercase` on the
(all-ASCII) section names `"NAME"` and `"DESCRIPTION"` it is applied to. -/
def ascii_to_uppercase (s : Str) : Str :=
  s.map fun c => if 0x61 ≤ c ∧ c ≤ 0x7A then c - 0x20 else c

/-- Loop body of `ManpageScanner::extract_section`: walk the lines,
collecting the trimmed non-empty lines of the named section, joined by
single spaces, stopping at the next all-caps header of byte length
greater than 2.  `isUpper` stands for Rust `char::is_uppercase`. -/
def extract_section_go (isUpper : Nat → Bool) (section_name : Str) :
    List Str → Bool → Str → Str
  | [], _, acc => acc
  | line :: rest, in_section, acc =>
    let trimmed := rust_trim line
    if trimmed = section_name ∨ trimmed = ascii_to_uppercase section_name then
      extract_section_go isUpper section_name rest true acc
    else if in_section ∧ trimmed ≠ [] ∧
        (trimmed.all fun c => isUpper c || rust_is_whitespace c) = true ∧
        2 < byteLen trimmed then
      acc
    else if in_section ∧ trimmed ≠ [] then
      extract_section_go isUpper section_name rest in_section
        (if acc = [] then trimmed else acc ++ [0x20] ++ trimmed)
    else
      extract_section_go isUpper section_name rest in_section acc

/-- `ManpageScanner::extract_section`. -/
def extract_section (isUpper : Nat → Bool) (content section_name : Str) : Option Str :=
  let section_text := extract_section_go isUpper section_name (rust_lines content) false []
  if section_text = [] then none else some section_text

/-- Loop body of `ManpageScanner::extract_first_paragraph`: gather
trimmed non-empty lines until a blank line after collected text, or
until more than 400 code units are collected. -/
def extract_first_paragraph_go : List Str → Bool → Str → Str
  | [], _, acc => acc
  | line :: rest, prev_empty, acc =>
    let trimmed := rust_trim line
    if trimmed = [] then
      extract_first_paragraph_go rest (if acc ≠ [] then true else prev_empty) acc
    else if prev_empty ∧ acc ≠ [] then
      acc
    else
      let acc' := (if acc ≠ [] then acc ++ [0x20] else acc) ++ trimmed
      if 400 < byteLen acc' then acc' else extract_first_paragraph_go rest prev_empty acc'

/-- `ManpageScanner::extract_first_paragraph`. -/
def extract_first_paragraph (text : Str) : Str :=
  extract_first_paragraph_go (rust_lines text) false []

/-- The string `parse_manpage_content` has assembled just before its
final length check: the first `NAME` line (or the tool name when absent
or empty), then `" - "` and the first `DESCRIPTION` paragraph when that
paragraph is non-empty. -/
def summary_base (isUpper : Nat → Bool) (content tool_name : Str) : Str :=
  let r1 : Str :=
    match extract_section isUpper content (strRunes "NAME") with
    | some name_text =>
      let first_line := rust_trim ((rust_lines name_text).headD [])
      if first_line ≠ [] then first_line else []
    | none => []
  let r2 := if r1 = [] then tool_name else r1
  match extract_section isUpper content (strRunes "DESCRIPTION") with
  | some desc_text =>
    let first_para := extract_first_paragraph desc_text
    if first_para ≠ [] then
      (if r2 ≠ [] then r2 ++ strRunes " - " else r2) ++ first_para
    else r2
  | none => r2

/-- `ManpageScanner::parse_manpage_content`: the assembled summary,
truncated on a character boundary when its UTF-8 length exceeds 500,
with `"..."` appended after truncation. -/
def parse_manpage_content (isUpper : Nat → Bool) (content tool_name : Str) : Str :=
  let result := summary_base isUpper content tool_name
  if 500 < byteLen result then takeBytes result 500 ++ strRunes "..." else result

/-- ASCII uppercase test, the instantiation of the `isUpper` parameter
used by concrete witnesses. -/
def ascii_is_uppercase (c : Nat) : Bool := 0x41 ≤ c && c ≤ 0x5A

theorem parse_manpage_content_def (isUpper : Nat → Bool) (content tool_name : Str) :
    parse_manpage_content isUpper content tool_name =
      if 500 < byteLen (summary_base isUpper content tool_name) then
        takeBytes (summary_base isUpper content tool_name) 500 ++ strRunes "..."
      else summary_base isUpper content tool_name := rfl

/-- The `NAME`-derived half of the summary: the trimmed first line of
the `NAME` section when present and non-empty, else the tool name. -/
def name_part (isUpper : Nat → Bool) (content tool_name : Str) : Str :=
  match extract_section isUpper content (strRunes "NAME") with
  | some name_text =>
    let first_line := rust_trim ((rust_lines name_text).headD [])
    if first_line ≠ [] then first_line else tool_name
  | none => tool_name

/-- The `DESCRIPTION`-derived half of the summary: the first paragraph
of the `DESCRIPTION` section when present, else empty. -/
def desc_part (isUpper : Nat → Bool) (content : Str) : Str :=
  match extract_section isUpper content (strRunes "DESCRIPTION") with
  | some desc_text => extract_first_paragraph desc_text
  | none => []

theorem takeBytes_replicate_ascii (c : Nat) (h : c < 0x80) (n m : Nat) :
    takeBytes (List.replicate n c) m = List.replicate (min n m) c := by
  induction n generalizing m with
  | zero => simp [takeBytes]
  | succ k ih =>
    rw [List.replicate_succ]
    simp only [takeBytes]
    have hc : utf8Len c = 1 := by simp [utf8Len, h]
    rw [hc]
    split
    · rename_i hm
      rw [ih (m - 1)]
      have : min (k + 1) m = min k (m - 1) + 1 := by omega
      rw [this, List.replicate_succ]
    · rename_i hm
      have : m = 0 := by omega
      simp [this]

/-- C6 counterexample: the claim "the extracted summary is at most 500
code units long" fails: on truncation the code first cuts to 500 units
and then appends `"..."`, producing 503 units.  A 501-character tool
name with no `NAME`/`DESCRIPTION` sections yields a 503-unit summary. -/
theorem parse_manpage_content_exceeds_500 :
    500 < byteLen (parse_manpage_content ascii_is_uppercase [] (List.replicate 501 97)) := by
  have hbase : summary_base ascii_is_uppercase [] (List.replicate 501 97) =
      List.replicate 501 97 := rfl
  rw [parse_manpage_content_def, hbase,
    byteLen_replicate_ascii 501 97 (by norm_num), if_pos (by norm_num),
    byteLen_append, takeBytes_replicate_ascii 97 (by norm_num),
    byteLen_replicate_ascii _ 97 (by norm_num)]
  decide

/-- C6 (amended): the summary assembled by `parse_manpage_content` is
the `NAME` line joined by `" - "` with the first `DESCRIPTION`
paragraph (the tool name when `NAME` is absent or empty) whenever that
join is at most 500 code units; otherwise it is that join truncated on
a character boundary to at most 500 code units with `"..."` appended —
for a total of at most 503 (not 500) code units.  Truncation keeps
whole characters, so the output is a valid scalar-value sequence. -/
theorem parse_manpage_content_summary_spec (isUpper : Nat → Bool) (content tool_name : Str) :
    byteLen (parse_manpage_content isUpper content tool_name) ≤ 503 ∧
    (byteLen (summary_base isUpper content tool_name) ≤ 500 →
      parse_manpage_content isUpper content tool_name =
        summary_base isUpper content tool_name) ∧
    (500 < byteLen (summary_base isUpper content tool_name) →
      parse_manpage_content isUpper content tool_name =
        takeBytes (summary_base isUpper content tool_name) 500 ++ strRunes "..." ∧
      byteLen (takeBytes (summary_base isUpper content tool_name) 500) ≤ 500 ∧
      ∃ rest, takeBytes (summary_base isUpper content tool_name) 500 ++ rest =
        summary_base isUpper content tool_name) ∧
    summary_base isUpper content tool_name =
      (if desc_part isUpper content = [] then name_part isUpper content tool_name
       else if name_part isUpper content tool_name = [] then desc_part isUpper content
       else name_part isUpper content tool_name ++ strRunes " - " ++
         desc_part isUpper content) := by
  refine ⟨?_, ?_, ?_, ?_⟩
  · rw [parse_manpage_content_def]
    split
    · rw [byteLen_append]
      have h1 := byteLen_takeBytes_le (summary_base isUpper content tool_name) 500
      have h2 : byteLen (strRunes "...") = 3 := by decide
      omega
    · omega
  · intro h
    rw [parse_manpage_content_def, if_neg (by omega)]
  · intro h
    rw [parse_manpage_content_def, if_pos h]
    exact ⟨rfl, byteLen_takeBytes_le _ _, takeBytes_append_eq _ _⟩
  · unfold summary_base name_part desc_part
    rcases hN : extract_section isUpper content (strRunes "NAME") with _ | name_text <;>
      rcases hD : extract_section isUpper content (strRunes "DESCRIPTION") with _ | desc_text <;>
      simp only [] <;> split_ifs <;> simp_all

/-- C6 witness: the amended summary property applied at a concrete
manpage, discharging the no-truncation hypothesis. -/
theorem parse_manpage_content_summary_spec_witness :
    parse_manpage_content ascii_is_uppercase
        (strRunes "NAME\n       ls - list directory contents\n\nDESCRIPTION\n       List information about the FILEs.\n")
        (strRunes "ls") =
      summary_base ascii_is_uppercase
        (strRunes "NAME\n       ls - list directory contents\n\nDESCRIPTION\n       List information about the FILEs.\n")
        (strRunes "ls") :=
  (parse_manpage_content_summary_spec ascii_is_uppercase _ _).2.1 (by decide)

/-! ## Change tracker (`src/setup/metadata.rs`, `IndexMetadata`) -/

/-- The `files` map of `IndexMetadata`, `path → content hash`, as a
function (`HashMap::get`/`insert` semantics). -/
abbrev FileHashes := String → Option String

/-- `HashMap::insert` on the tracker map. -/
def insert_hash (files : FileHashes) (path h : String) : FileHashes :=
  fun p => if p = path then some h else files p

/-- `IndexMetadata::filter_changed`.  `hash` is the outcome of
`compute_file_hash` for each path (`none` models an I/O error, which the
source treats as "changed").  Returns the paths to process, in input
order, and the count of unchanged paths. -/
def filter_changed (hash : String → Option String) (files : FileHashes) :
    List String → List String × Nat
  | [] => ([], 0)
  | path :: rest =>
    let r := filter_changed hash files rest
    match hash path with
    | some h =>
      match files path with
      | some stored => if h = stored then (r.1, r.2 + 1) else (path :: r.1, r.2)
      | none => (path :: r.1, r.2)
    | none => (path :: r.1, r.2)

/-- `IndexMetadata::update_hashes`: record freshly computed hashes for
the given paths, skipping paths whose hashing fails. -/
def update_hashes (hash : String → Option String) (files : FileHashes) :
    List String → FileHashes
  | [] => files
  | path :: rest =>
    update_hashes hash
      (match hash path with
       | some h => insert_hash files path h
       | none => files) rest

theorem update_hashes_not_mem (hash : String → Option String) (files : FileHashes)
    (paths : List String) (p : String) (hp : p ∉ paths) :
    update_hashes hash files paths p = files p := by
  induction paths generalizing files with
  | nil => rfl
  | cons q rest ih =>
    simp only [List.mem_cons, not_or] at hp
    rw [update_hashes, ih _ hp.2]
    cases hash q with
    | none => rfl
    | some h => simp [insert_hash, hp.1]

theorem update_hashes_mem (hash : String → Option String) (files : FileHashes)
    (paths : List String) (p : String) (h : String)
    (hp : p ∈ paths) (hh : hash p = some h) :
    update_hashes hash files paths p = some h := by
  induction paths generalizing files with
  | nil => simp at hp
  | cons q rest ih =>
    rw [update_hashes]
    rcases List.mem_cons.mp hp with hq | hrest
    · subst hq
      by_cases hr : p ∈ rest
      · exact ih _ hr
      · rw [update_hashes_not_mem _ _ _ _ hr, hh]
        simp [insert_hash]
    · exact ih _ hrest

theorem filter_changed_all_unchanged (hash : String → Option String) (files : FileHashes)
    (paths : List String)
    (h : ∀ p ∈ paths, ∃ hv, hash p = some hv ∧ files p = some hv) :
    filter_changed hash files paths = ([], paths.length) := by
  induction paths with
  | nil => rfl
  | cons q rest ih =>
    obtain ⟨hv, hhash, hstored⟩ := h q (List.mem_cons_self q rest)
    rw [filter_changed, ih fun p hp => h p (List.mem_cons_of_mem q hp), hhash, hstored]
    simp

theorem filter_changed_tail_subset (hash : String → Option String) (files : FileHashes)
    (q : String) (rest : List String) (p : String)
    (hp : p ∈ (filter_changed hash files rest).1) :
    p ∈ (filter_changed hash files (q :: rest)).1 := by
  rw [filter_changed]
  cases hash q with
  | none => exact List.mem_cons_of_mem q hp
  | some hv =>
    cases files q with
    | none => exact List.mem_cons_of_mem q hp
    | some stored =>
      by_cases heq : hv = stored
      · simp only [if_pos heq]; exact hp
      · simp only [if_neg heq]; exact List.mem_cons_of_mem q hp

theorem filter_changed_unchanged_hash (hash : String → Option String) (files : FileHashes)
    (paths : List String) (p : String) (hp : p ∈ paths)
    (hnot : p ∉ (filter_changed hash files paths).1) :
    ∃ hv, hash p = some hv ∧ files p = some hv := by
  induction paths with
  | nil => simp at hp
  | cons q rest ih =>
    rcases List.mem_cons.mp hp with hq | hrest
    · subst hq
      rw [filter_changed] at hnot
      cases hhash : hash p with
      | none => rw [hhash] at hnot; simp at hnot
      | some hv =>
        rw [hhash] at hnot
        cases hstored : files p with
        | none => rw [hstored] at hnot; simp at hnot
        | some stored =>
          rw [hstored] at hnot
          by_cases heq : hv = stored
          · subst heq
            exact ⟨hv, rfl, rfl⟩
          · simp [heq] at hnot
    · exact ih hrest fun hmem => hnot (filter_changed_tail_subset hash files q rest p hmem)

/-- C2 counterexample: the claim fails for a path whose hashing fails.
A path that cannot be hashed is put into `todo`, `update_hashes` skips
it, and the second `filter_changed` with no file changes returns it
again — the second `todo` is not empty. -/
theorem filter_changed_requeues_unreadable :
    (filter_changed (fun _ => none)
      (update_hashes (fun _ => none) (fun _ => none)
        (filter_changed (fun _ => none) (fun _ => none) ["p"]).1) ["p"]).1 = ["p"] := rfl

/-- C2 (amended): every path of `P` outside `todo` hashed successfully
to its stored hash (unconditionally); and provided every path of `P`
hashes successfully, after `update_hashes todo` a second
`filter_changed P` with no file changes yields an empty `todo` (paths
whose hashing fails are re-queued forever instead). -/
theorem filter_changed_incremental_sound (hash : String → Option String)
    (files : FileHashes) (paths : List String) :
    (∀ p ∈ paths, p ∉ (filter_changed hash files paths).1 →
      ∃ hv, hash p = some hv ∧ files p = some hv) ∧
    ((∀ p ∈ paths, (hash p).isSome) →
      filter_changed hash
        (update_hashes hash files (filter_changed hash files paths).1) paths =
        ([], paths.length)) := by
  constructor
  · exact fun p hp hnot => filter_changed_unchanged_hash hash files paths p hp hnot
  · intro hall
    apply filter_changed_all_unchanged
    intro p hp
    obtain ⟨hv, hhash⟩ := Option.isSome_iff_exists.mp (hall p hp)
    by_cases hmem : p ∈ (filter_changed hash files paths).1
    · exact ⟨hv, hhash, update_hashes_mem hash files _ p hv hmem hhash⟩
    · obtain ⟨hv', hh', hf'⟩ := filter_changed_unchanged_hash hash files paths p hp hmem
      refine ⟨hv, hhash, ?_⟩
      rw [update_hashes_not_mem hash files _ p hmem, hf']
      rw [hhash] at hh'
      injection hh' with h
      rw [h]

/-- C2 witness: the incremental-soundness theorem applied to a concrete
tracker state in which every path hashes successfully. -/
theorem filter_changed_incremental_sound_witness :
    filter_changed (fun _ => some "h1")
      (update_hashes (fun _ => some "h1") (fun _ => none)
        (filter_changed (fun _ => some "h1") (fun _ => none) ["a", "b"]).1) ["a", "b"] =
      ([], 2) :=
  (filter_changed_incremental_sound (fun _ => some "h1") (fun _ => none) ["a", "b"]).2
    (by simp)

/-! ## Embedding generation (`src/setup/index.rs`, `EmbeddingGenerator`) -/

/-- `ManpageContent` from `src/setup/index.rs` (the Rust field
`section` is renamed `man_section`: `section` is a Lean keyword). -/
structure ManpageContent where
  tool_name : String
  man_section : String
  description : Str
deriving DecidableEq

/-- `ManpageEntry` from `src/setup/index.rs` (float vectors are modelled
as integer lists; no arithmetic is performed on them). -/
structure ManpageEntry where
  tool_name : String
  man_section : String
  description : Str
  vector : List Int
deriving DecidableEq

/-- The retry loop of `EmbeddingGenerator::generate_with_retry`:
`attempt` is the 1-based attempt counter, the second argument the
remaining attempts (`max_attempts - attempt + 1`).  `embed k` is the
outcome of the HTTP embedding call on attempt `k`; the returned list
records the sleeps (in seconds, `2^attempt`) between attempts. -/
def generate_with_retry_go (embed : Nat → Except Unit (List Int)) :
    Nat → Nat → Except Unit (List Int) × List Nat
  | _, 0 => (.error (), [])
  | attempt, remaining + 1 =>
    match embed attempt with
    | .ok v => (.ok v, [])
    | .error e =>
      if remaining = 0 then (.error e, [])
      else
        let r := generate_with_retry_go embed (attempt + 1) remaining
        (r.1, 2 ^ attempt :: r.2)

/-- `EmbeddingGenerator::generate_with_retry` (`max_attempts = 3`). -/
def generate_with_retry (embed : Nat → Except Unit (List Int)) :
    Except Unit (List Int) × List Nat :=
  generate_with_retry_go embed 1 3

/-- `EmbeddingGenerator::generate_embeddings`: sequentially embeds each
content; `generate_with_retry`'s error is propagated with `?`, failing
the whole run.  `embed` gives the per-attempt HTTP outcome keyed by the
text being embedded. -/
def generate_embeddings (embed : Str → Nat → Except Unit (List Int)) :
    List ManpageContent → Except Unit (List ManpageEntry)
  | [] => .ok []
  | c :: cs =>
    match (generate_with_retry (embed c.description)).1 with
    | .error e => .error e
    | .ok v =>
      match generate_embeddings embed cs with
      | .error e => .error e
      | .ok rest =>
        .ok ({ tool_name := c.tool_name, man_section := c.man_section,
               description := c.description, vector := v } :: rest)

/-- C7 counterexample: the claim "a single item's final failure does not
fail the whole pipeline run; the remaining items' embeddings are still
produced" fails.  With two items where the first fails all three
attempts and the second would succeed, the whole run returns an error
and no entries. -/
theorem generate_embeddings_whole_run_fails :
    generate_embeddings
      (fun d _ => if d = strRunes "descA" then .error () else .ok [5])
      [⟨"a", "1", strRunes "descA"⟩, ⟨"b", "1", strRunes "descB"⟩] = .error () ∧
    (generate_with_retry
      ((fun d _ => if d = strRunes "descA" then .error () else .ok [5])
        (strRunes "descB"))).1 = .ok [5] :=
  ⟨rfl, rfl⟩

/-- C7 (amended): each item is embedded with up to three attempts and a
sleep of `2^attempt` seconds between attempts; but when the final
attempt of any item fails, the whole `generate_embeddings` run fails
with an error and returns no entries (the item is not merely dropped).
When every item succeeds within three attempts, one entry per item is
produced. -/
theorem generate_embeddings_retry_spec :
    (∀ embed1 : Nat → Except Unit (List Int),
      generate_with_retry embed1 =
        match embed1 1 with
        | .ok v => (.ok v, [])
        | .error _ =>
          match embed1 2 with
          | .ok v => (.ok v, [2])
          | .error _ => (embed1 3, [2, 4])) ∧
    (∀ (embed : Str → Nat → Except Unit (List Int)) (contents : List ManpageContent)
      (c : ManpageContent), c ∈ contents →
      (generate_with_retry (embed c.description)).1 = .error () →
      generate_embeddings embed contents = .error ()) ∧
    (∀ (embed : Str → Nat → Except Unit (List Int)) (contents : List ManpageContent),
      (∀ c ∈ contents, ∃ v, (generate_with_retry (embed c.description)).1 = .ok v) →
      ∃ l, generate_embeddings embed contents = .ok l ∧ l.length = contents.length) := by
  refine ⟨?_, ?_, ?_⟩
  · intro embed1
    rcases h1 : embed1 1 with e1 | v1 <;>
      rcases h2 : embed1 2 with e2 | v2 <;>
      rcases h3 : embed1 3 with e3 | v3 <;>
      simp [generate_with_retry, generate_with_retry_go, h1, h2, h3]
  · intro embed contents c hc hfail
    induction contents with
    | nil => simp at hc
    | cons d rest ih =>
      rw [generate_embeddings]
      rcases List.mem_cons.mp hc with hd | hrest
      · subst hd
        rw [hfail]
      · cases hhead : (generate_with_retry (embed d.description)).1 with
        | error e => rfl
        | ok v => rw [ih hrest]
  · intro embed contents hall
    induction contents with
    | nil => exact ⟨[], rfl, rfl⟩
    | cons d rest ih =>
      obtain ⟨v, hv⟩ := hall d (List.mem_cons_self d rest)
      obtain ⟨l, hl, hlen⟩ := ih fun c hc => hall c (List.mem_cons_of_mem d hc)
      refine ⟨{ tool_name := d.tool_name, man_section := d.man_section,
                description := d.description, vector := v } :: l, ?_, ?_⟩
      · rw [generate_embeddings, hv, hl]
      · simp [hlen]

/-- C7 witness: the all-success side of the retry specification applied
to a concrete run in which every embedding call succeeds immediately. -/
theorem generate_embeddings_retry_spec_witness :
    ∃ l, generate_embeddings (fun _ _ => .ok [5]) [⟨"a", "1", strRunes "descA"⟩] = .ok l ∧
      l.length = 1 :=
  generate_embeddings_retry_spec.2.2 (fun _ _ => .ok [5]) [⟨"a", "1", strRunes "descA"⟩]
    (fun _ _ => ⟨[5], rfl⟩)

/-! ## LLM response parsing (`src/llm/response.rs`) -/

/-- `RiskLevel` from `src/llm/response.rs`. -/
inductive RiskLevel where
  | safe
  | moderate
  | destructive
deriving DecidableEq

/-- `CommandSuggestion` from `src/llm/response.rs`. -/
structure CommandSuggestion where
  command : String
  title : String
  explanation : String
  risk_level : RiskLevel
deriving DecidableEq

/-- A JSON value (the image of `serde_json` parsing). -/
inductive Json where
  | null
  | bool (b : Bool)
  | num (n : Int)
  | str (s : String)
  | arr (elems : List Json)
  | obj (fields : List (String × Json))

/-- Field lookup in a JSON object. -/
def getField (fields : List (String × Json)) (key : String) : Option Json :=
  (fields.find? fun p => p.1 = key).map Prod.snd

/-- Serde deserialization of `RiskLevel` (`rename_all = "lowercase"`):
only the three exact variant strings are accepted. -/
def riskFromJson : Json → Except Unit RiskLevel
  | .str s =>
    if s = "safe" then .ok .safe
    else if s = "moderate" then .ok .moderate
    else if s = "destructive" then .ok .destructive
    else .error ()
  | _ => .error ()

/-- Deserialize a required serde `String` field value. -/
def strFromJson : Json → Except Unit String
  | .str s => .ok s
  | _ => .error ()

/-- Serde deserialization of `CommandSuggestion`: `command`, `title` and
`explanation` are required strings; `risk_level` carries
`#[serde(default)]`, so an absent field yields `RiskLevel::Safe`, while
a present field must deserialize (an unrecognised value is an error);
unknown fields are ignored. -/
def reqStrField (fields : List (String × Json)) (key : String) : Except Unit String :=
  match getField fields key with
  | some v => strFromJson v
  | none => .error ()

/-- The optional `risk_level` field: `#[serde(default)]` yields
`RiskLevel::Safe` when the field is absent; a present field must
deserialize. -/
def optRiskField (fields : List (String × Json)) : Except Unit RiskLevel :=
  match getField fields "risk_level" with
  | some v => riskFromJson v
  | none => .ok RiskLevel.safe

def suggestionFromJson : Json → Except Unit CommandSuggestion
  | .obj fields =>
    match reqStrField fields "command" with
    | .error e => .error e
    | .ok command =>
      match reqStrField fields "title" with
      | .error e => .error e
      | .ok title =>
        match reqStrField fields "explanation" with
        | .error e => .error e
        | .ok explanation =>
          match optRiskField fields with
          | .error e => .error e
          | .ok risk_level =>
            .ok { command := command, title := title, explanation := explanation,
                  risk_level := risk_level }
  | _ => .error ()

/-- Deserialize each element of the `suggestions` array. -/
def suggestionsFromJson : List Json → Except Unit (List CommandSuggestion)
  | [] => .ok []
  | j :: rest => do
    let s ← suggestionFromJson j
    let l ← suggestionsFromJson rest
    .ok (s :: l)

/-- Serde deserialization of `SuggestionsResponse`: an object with a
required `suggestions` array field. -/
def responseFromJson : Json → Except Unit (List CommandSuggestion)
  | .obj fields =>
    match getField fields "suggestions" with
    | some (.arr elems) => suggestionsFromJson elems
    | some _ => .error ()
    | none => .error ()
  | _ => .error ()

/-- Rust `str::trim` on a Lean `String`. -/
def rust_trim_str (s : String) : String :=
  String.mk (((s.data.dropWhile fun c => rust_is_whitespace c.toNat).reverse.dropWhile
    fun c => rust_is_whitespace c.toNat).reverse)

/-- The errors of `parse_suggestions`: `jsonError` is the
"Failed to parse LLM response as JSON" context (covering both malformed
JSON text and serde shape errors); `emptyCommand i` is the
"Suggestion i has empty command" bailout (1-based). -/
inductive ParseError where
  | jsonError
  | emptyCommand (i : Nat)
deriving DecidableEq

/-- The post-deserialization validation loop of `parse_suggestions`:
reject the first suggestion (0-based index `i`) whose command is empty
after trimming. -/
def check_commands : Nat → List CommandSuggestion → Except ParseError (List CommandSuggestion)
  | _, [] => .ok []
  | i, s :: rest =>
    if rust_trim_str s.command = "" then .error (.emptyCommand (i + 1))
    else
      match check_commands (i + 1) rest with
      | .error e => .error e
      | .ok l => .ok (s :: l)

/-- `parse_suggestions` from `src/llm/response.rs`.  The input is the
response text as parsed JSON (`none` models text that is not
well-formed JSON). -/
def parse_suggestions (doc : Option Json) : Except ParseError (List CommandSuggestion) :=
  match doc with
  | none => .error .jsonError
  | some j =>
    match responseFromJson j with
    | .error _ => .error .jsonError
    | .ok parsed => check_commands 0 parsed

theorem check_commands_all_ok (l : List CommandSuggestion) (i : Nat)
    (h : ∀ s ∈ l, rust_trim_str s.command ≠ "") :
    check_commands i l = .ok l := by
  induction l generalizing i with
  | nil => rfl
  | cons s rest ih =>
    rw [check_commands,
      if_neg (h s (List.mem_cons_self s rest)),
      ih (i + 1) fun t ht => h t (List.mem_cons_of_mem s ht)]

theorem check_commands_ok_inv (l l' : List CommandSuggestion) (i : Nat)
    (h : check_commands i l = .ok l') :
    l' = l ∧ ∀ s ∈ l, rust_trim_str s.command ≠ "" := by
  induction l generalizing i l' with
  | nil =>
    rw [check_commands] at h
    injection h with h
    simp [h.symm]
  | cons s rest ih =>
    rw [check_commands] at h
    by_cases hs : rust_trim_str s.command = ""
    · rw [if_pos hs] at h; exact absurd h (by simp)
    · rw [if_neg hs] at h
      cases hrest : check_commands (i + 1) rest with
      | error e => rw [hrest] at h; exact absurd h (by simp)
      | ok l2 =>
        rw [hrest] at h
        injection h with h
        obtain ⟨hl2, hall⟩ := ih l2 (i + 1) hrest
        subst hl2
        subst h
        exact ⟨rfl, by
          intro t ht
          rcases List.mem_cons.mp ht with hts | htr
          · subst hts; exact hs
          · exact hall t htr⟩

/-- C8 counterexample: the claim "a suggestion whose risk field carries
an unrecognised value is accepted with risk defaulted to safe" fails:
serde's `#[serde(default)]` applies only to an absent field, and an
unrecognised `risk_level` string makes deserialization (and hence
`parse_suggestions`) fail, while the same document without the field is
accepted with `safe`. -/
theorem parse_suggestions_unknown_risk_rejected :
    parse_suggestions (some (.obj [("suggestions", .arr [.obj
      [("command", .str "ls"), ("title", .str "t"),
       ("explanation", .str "e"), ("risk_level", .str "wild")]])])) =
      .error .jsonError ∧
    parse_suggestions (some (.obj [("suggestions", .arr [.obj
      [("command", .str "ls"), ("title", .str "t"), ("explanation", .str "e")]])])) =
      .ok [{ command := "ls", title := "t", explanation := "e", risk_level := .safe }] :=
  ⟨rfl, rfl⟩

/-- C8 (amended): a suggestion whose risk field is absent is accepted
with risk defaulted to safe; a suggestion carrying an unrecognised risk
value makes deserialization fail, so the whole document is rejected
with the JSON-parse error; and `parse_suggestions` succeeds exactly on
documents that are well-formed JSON, deserialize to the expected shape,
and have no suggestion whose command is empty after trimming. -/
theorem parse_suggestions_spec :
    (∀ (fields : List (String × Json)) (cmd title expl : String),
      getField fields "command" = some (.str cmd) →
      getField fields "title" = some (.str title) →
      getField fields "explanation" = some (.str expl) →
      getField fields "risk_level" = none →
      suggestionFromJson (.obj fields) =
        .ok { command := cmd, title := title, explanation := expl,
              risk_level := .safe }) ∧
    (∀ (fields : List (String × Json)) (s : String),
      getField fields "risk_level" = some (.str s) →
      s ≠ "safe" → s ≠ "moderate" → s ≠ "destructive" →
      suggestionFromJson (.obj fields) = .error ()) ∧
    (∀ (j : Json) (l : List CommandSuggestion),
      parse_suggestions (some j) = .ok l ↔
        responseFromJson j = .ok l ∧ ∀ s ∈ l, rust_trim_str s.command ≠ "") ∧
    parse_suggestions none = .error .jsonError := by
  refine ⟨?_, ?_, ?_, rfl⟩
  · intro fields cmd title expl hc ht he hr
    simp [suggestionFromJson, reqStrField, optRiskField, hc, ht, he, hr, strFromJson]
  · intro fields s hr h1 h2 h3
    have hrisk : optRiskField fields = .error () := by
      rw [optRiskField, hr]
      simp [riskFromJson, h1, h2, h3]
    rw [suggestionFromJson]
    cases hc : reqStrField fields "command" with
    | error e => rfl
    | ok cmd =>
      cases ht : reqStrField fields "title" with
      | error e => rfl
      | ok title =>
        cases he : reqStrField fields "explanation" with
        | error e => rfl
        | ok expl => rw [hrisk]
  · intro j l
    constructor
    · intro h
      rw [parse_suggestions] at h
      cases hresp : responseFromJson j with
      | error e => rw [hresp] at h; exact absurd h (by simp)
      | ok parsed =>
        rw [hresp] at h
        obtain ⟨hl, hall⟩ := check_commands_ok_inv parsed l 0 h
        subst hl
        exact ⟨rfl, hall⟩
    · rintro ⟨hresp, hall⟩
      rw [parse_suggestions, hresp]
      exact check_commands_all_ok l 0 hall

/-- C8 witness: the default-risk side of the specification applied to a
concrete suggestion object without a `risk_level` field. -/
theorem parse_suggestions_spec_witness :
    suggestionFromJson (.obj [("command", .str "pwd"), ("title", .str "p"),
      ("explanation", .str "x")]) =
      .ok { command := "pwd", title := "p", explanation := "x",
            risk_level := .safe } :=
  parse_suggestions_spec.1 _ "pwd" "p" "x" rfl rfl rfl rfl

/-! ## Configuration (`src/setup/config.rs`) -/

/-- `ModelsConfig` from `src/setup/config.rs`. -/
structure ModelsConfig where
  embedding_model : String
  llm_model : String
deriving DecidableEq

/-- `OllamaConfig` from `src/setup/config.rs`. -/
structure OllamaConfig where
  url : String
deriving DecidableEq

/-- `IndexConfig` from `src/setup/config.rs`. -/
structure IndexConfig where
  embedding_dimension : Option Nat
  last_embedding_model : Option String
deriving DecidableEq

/-- `Config` from `src/setup/config.rs`. -/
structure Config where
  models : ModelsConfig
  ollama : OllamaConfig
  index : IndexConfig
deriving DecidableEq

/-- `Config::embedding_model`. -/
def Config.embedding_model (c : Config) : String := c.models.embedding_model

/-- `Config::llm_model`. -/
def Config.llm_model (c : Config) : String := c.models.llm_model

/-- `Config::ollama_url`. -/
def Config.ollama_url (c : Config) : String := c.ollama.url

/-- `Config::update_index_metadata`. -/
def Config.update_index_metadata (c : Config) (dimension : Nat) : Config :=
  { c with index := { embedding_dimension := some dimension,
                      last_embedding_model := some c.models.embedding_model } }

/-- `Config::needs_index_rebuild`. -/
def Config.needs_index_rebuild (c : Config) : Bool :=
  match c.index.last_embedding_model with
  | some last_model => last_model != c.models.embedding_model
  | none => false

/-- `Config::index_dimension`. -/
def Config.index_dimension (c : Config) : Option Nat := c.index.embedding_dimension

/-- `Config::default`. -/
def default_config : Config :=
  { models := { embedding_model := "nomic-embed-text", llm_model := "llama3.2:3b" },
    ollama := { url := "http://localhost:11434" },
    index := { embedding_dimension := none, last_embedding_model := none } }

/-! ## Manpage content loading (`src/query/search.rs`) -/

/-- `MAX_CONTENT_LENGTH` from `src/query/search.rs`. -/
def MAX_CONTENT_LENGTH : Nat := 8000

/-- Rust `u8::is_ascii_alphabetic` on a scalar value. -/
def is_ascii_alphabetic (c : Nat) : Bool :=
  (0x41 ≤ c && c ≤ 0x5A) || (0x61 ≤ c && c ≤ 0x7A)

/-- The inner loop of `clean_escape_sequences` after `ESC [`: consume
characters up to and including the first ASCII letter. -/
def skip_csi : Str → Str
  | [] => []
  | c :: rest => if is_ascii_alphabetic c then rest else skip_csi rest

theorem skip_csi_length_le (s : Str) : (skip_csi s).length ≤ s.length := by
  induction s with
  | nil => simp [skip_csi]
  | cons c rest ih =>
    rw [skip_csi]
    split
    · simp
    · exact le_trans ih (Nat.le_succ _)

/-- The escape-stripping pass of `clean_escape_sequences`
(`src/query/search.rs`): on `ESC`, if the next character is `[`, both
are dropped along with everything up to and including the next ASCII
letter; a lone `ESC` is dropped by itself. -/
def strip_escapes : Str → Str
  | [] => []
  | 0x1B :: 0x5B :: rest2 => strip_escapes (skip_csi rest2)
  | 0x1B :: rest => strip_escapes rest
  | c :: rest => c :: strip_escapes rest
termination_by s => s.length
decreasing_by
  · have := skip_csi_length_le rest2
    simp
    omega
  · simp
  · simp

/-- The whitespace-normalisation pass of `clean_escape_sequences`:
collapse newline runs to one newline and other whitespace runs to one
space, tracked by the `prev_whitespace`/`prev_newline` flags. -/
def normalize_ws_go : Str → Bool → Bool → Str
  | [], _, _ => []
  | c :: rest, prev_ws, prev_nl =>
    if c = 0x0A then
      (if prev_nl then [] else [0x0A]) ++ normalize_ws_go rest true true
    else if rust_is_whitespace c then
      (if prev_ws then [] else [0x20]) ++ normalize_ws_go rest true false
    else
      c :: normalize_ws_go rest false false

/-- `clean_escape_sequences` from `src/query/search.rs`. -/
def clean_escape_sequences (text : Str) : Str :=
  normalize_ws_go (strip_escapes text) false false

/-- `truncate_content` from `src/query/search.rs`. -/
def truncate_content (text : Str) (max_len : Nat) : Str :=
  if byteLen text ≤ max_len then text
  else takeBytes text max_len ++ strRunes "\n\n[Content truncated...]"

/-! ## Query pipeline (`src/query/search.rs`, `src/query/mod.rs`) -/

/-- `DEFAULT_MODEL` from `src/llm/ollama.rs`. -/
def DEFAULT_MODEL : String := "llama3"

/-- `MAX_SEARCH_RESULTS` from `src/query/mod.rs`. -/
def MAX_SEARCH_RESULTS : Nat := 3

/-- `SearchResult` from `src/db.rs` (the `f32` score is modelled as an
integer; no arithmetic is performed on it). -/
structure SearchResult where
  tool_name : String
  man_section : String
  description : String
  score : Int
deriving DecidableEq

/-- `SearchMatch` from `src/query/search.rs`. -/
structure SearchMatch where
  tool_name : String
  man_section : String
  description : String
  score : Int
deriving DecidableEq

/-- The externally visible calls the query pipeline makes, in order. -/
inductive QueryEvent where
  | embedRequest (model : String) (text : Str)
  | searchRequest (vector : List Int) (limit : Nat)
  | manCommand (tool : String)
  | generateRequest (model : String) (prompt : Str) (json_mode : Bool)
deriving DecidableEq

/-- One constructor per error site of the query pipeline
(`anyhow` contexts and `bail!` sites, carrying their formatted
arguments). -/
inductive QueryError where
  | indexCheckFailed
  | indexMissing
  | configLoadFailed
  | indexStale (last_model current : String)
  | indexModelUnknown (current : String)
  | clientCreateFailed
  | embedFailed
  | searchFailed
  | noMatches (query : Str)
  | manpageFailed
  | contextFailed
  | generateFailed
  | parseFailed (e : ParseError)
deriving DecidableEq

/-- Oracle environment for the query pipeline: the outcome of every
external interaction (vector store, config file, Ollama HTTP calls,
the `man` subprocess, the working-directory scan). -/
structure QueryEnv where
  index_exists : Except Unit Bool
  load_config : Except Unit Config
  client_create_ok : Bool
  embed_result : String → Str → Except Unit (List Int)
  search_result : List Int → Nat → Except Unit (List SearchResult)
  man_page : String → Except Unit Str
  context_str : Except Unit Str
  query_client_ok : Bool
  generate_result : String → Str → Bool → Except Unit (Option Json)

/-- `search_tools` from `src/query/search.rs`: index-existence check,
config load, stale-index and unknown-fingerprint checks, client
creation, query embedding, vector search.  Returns the result and the
trace of external calls. -/
def search_tools (env : QueryEnv) (query : Str) (limit : Nat) :
    Except QueryError (List SearchMatch) × List QueryEvent :=
  match env.index_exists with
  | .error _ => (.error .indexCheckFailed, [])
  | .ok false => (.error .indexMissing, [])
  | .ok true =>
    match env.load_config with
    | .error _ => (.error .configLoadFailed, [])
    | .ok config =>
      if config.needs_index_rebuild then
        (.error (.indexStale (config.index.last_embedding_model.getD "unknown")
          config.embedding_model), [])
      else if config.index.last_embedding_model.isNone then
        (.error (.indexModelUnknown config.embedding_model), [])
      else if ¬ env.client_create_ok then
        (.error .clientCreateFailed, [])
      else
        match env.embed_result config.embedding_model query with
        | .error _ =>
          (.error .embedFailed, [.embedRequest config.embedding_model query])
        | .ok embedding =>
          match env.search_result embedding limit with
          | .error _ =>
            (.error .searchFailed,
             [.embedRequest config.embedding_model query,
              .searchRequest embedding limit])
          | .ok results =>
            (.ok (results.map fun r =>
                ({ tool_name := r.tool_name, man_section := r.man_section,
                   description := r.description, score := r.score } : SearchMatch)),
             [.embedRequest config.embedding_model query,
              .searchRequest embedding limit])

/-- `load_manpage_content` from `src/query/search.rs`: run
`man -P cat`, clean escape sequences, truncate to the content limit. -/
def load_manpage_content (env : QueryEnv) (tool_name : String) :
    Except QueryError Str × List QueryEvent :=
  match env.man_page tool_name with
  | .error _ => (.error .manpageFailed, [.manCommand tool_name])
  | .ok content =>
    (.ok (truncate_content (clean_escape_sequences content) MAX_CONTENT_LENGTH),
     [.manCommand tool_name])

/-- `process_query` from `src/query/mod.rs`: search, load the top
match's manpage, scan directory context, build the prompt, call
`generate` (with the hard-coded `DEFAULT_MODEL` and `json_mode = true`),
parse the response. -/
def process_query (env : QueryEnv) (query : Str) :
    Except QueryError (List CommandSuggestion) × List QueryEvent :=
  match search_tools env query MAX_SEARCH_RESULTS with
  | (.error e, tr) => (.error e, tr)
  | (.ok found_matches, tr) =>
    match found_matches with
    | [] => (.error (.noMatches query), tr)
    | top :: _ =>
      match load_manpage_content env top.tool_name with
      | (.error e, tr2) => (.error e, tr ++ tr2)
      | (.ok manpage_content, tr2) =>
        match env.context_str with
        | .error _ => (.error .contextFailed, tr ++ tr2)
        | .ok context =>
          let prompt := build_prompt query manpage_content context
          if ¬ env.query_client_ok then (.error .clientCreateFailed, tr ++ tr2)
          else
            match env.generate_result DEFAULT_MODEL prompt true with
            | .error _ =>
              (.error .generateFailed,
               tr ++ tr2 ++ [.generateRequest DEFAULT_MODEL prompt true])
            | .ok doc =>
              match parse_suggestions doc with
              | .error pe =>
                (.error (.parseFailed pe),
                 tr ++ tr2 ++ [.generateRequest DEFAULT_MODEL prompt true])
              | .ok suggestions =>
                (.ok suggestions,
                 tr ++ tr2 ++ [.generateRequest DEFAULT_MODEL prompt true])

/-- A configuration recording `last_embedding_model = "A"` while the
current `embedding_model` is `"B"`. -/
def cfgAB : Config :=
  { models := { embedding_model := "B", llm_model := "llama3.2:3b" },
    ollama := { url := "http://localhost:11434" },
    index := { embedding_dimension := some 768, last_embedding_model := some "A" } }

/-- Environment with a stale configuration but no vector index. -/
def env_no_index : QueryEnv :=
  { index_exists := .ok false, load_config := .ok cfgAB, client_create_ok := true,
    embed_result := fun _ _ => .ok [1], search_result := fun _ _ => .ok [],
    man_page := fun _ => .ok [], context_str := .ok [], query_client_ok := true,
    generate_result := fun _ _ _ => .ok none }

/-- C3 counterexample: with the configuration recording
`last_embedding_model = "A"` and `embedding_model = "B"` but the index
absent, processing a query fails with the index-missing error, not the
stale-index error — the claim's conclusion does not hold in every state
satisfying its premise. -/
theorem process_query_stale_config_but_index_missing :
    env_no_index.load_config = .ok cfgAB ∧
    cfgAB.index.last_embedding_model = some "A" ∧
    cfgAB.embedding_model = "B" ∧ ("A" : String) ≠ "B" ∧
    process_query env_no_index (strRunes "x") = (.error .indexMissing, []) ∧
    QueryError.indexMissing ≠ QueryError.indexStale "A" "B" :=
  ⟨rfl, rfl, rfl, by decide, rfl, by decide⟩

/-- C3 (amended): provided the vector index exists and the
configuration loads, a configuration recording `last_embedding_model =
A` with current `embedding_model = B` (`A ≠ B`) makes every query fail
with the stale-index error carrying both model names, with an empty
call trace — in particular no embedding HTTP request is issued.  (When
the index is absent the failure is the index-missing error instead,
again before any embedding HTTP request.) -/
theorem process_query_stale_index_rejection (env : QueryEnv) (query : Str)
    (config : Config) (a b : String)
    (hexists : env.index_exists = .ok true)
    (hconfig : env.load_config = .ok config)
    (hlast : config.index.last_embedding_model = some a)
    (hcur : config.models.embedding_model = b)
    (hne : a ≠ b) :
    process_query env query = (.error (.indexStale a b), []) := by
  have hreb : config.needs_index_rebuild = true := by
    rw [Config.needs_index_rebuild, hlast]
    simp [hcur, hne]
  have hst : search_tools env query MAX_SEARCH_RESULTS = (.error (.indexStale a b), []) := by
    simp only [search_tools, hexists, hconfig, hreb, if_true]
    simp [hlast, Config.embedding_model, hcur]
  simp only [process_query, hst]

/-- C3 witness: the stale-index rejection applied to a concrete
environment in which the index exists. -/
theorem process_query_stale_index_rejection_witness :
    process_query { env_no_index with index_exists := .ok true } (strRunes "x") =
      (.error (.indexStale "A" "B"), []) :=
  process_query_stale_index_rejection _ (strRunes "x") cfgAB "A" "B"
    rfl rfl rfl rfl (by decide)

/-- A well-fingerprinted configuration recording dimension 768. -/
def cfg_dim : Config :=
  { models := { embedding_model := "nomic-embed-text", llm_model := "llama3.2:3b" },
    ollama := { url := "http://localhost:11434" },
    index := { embedding_dimension := some 768,
               last_embedding_model := some "nomic-embed-text" } }

/-- Environment in which the embedding HTTP call returns a 2-element
vector although the configured index dimension is 768, and every other
step succeeds. -/
def env_mismatch : QueryEnv :=
  { index_exists := .ok true, load_config := .ok cfg_dim, client_create_ok := true,
    embed_result := fun _ _ => .ok [1, 2],
    search_result := fun _ _ => .ok [⟨"ls", "1", "list directory contents", 0⟩],
    man_page := fun _ => .ok (strRunes "NAME\n ls - list\n"),
    context_str := .ok (strRunes "No specific project type detected"),
    query_client_ok := true,
    generate_result := fun _ _ _ => .ok (some (.obj [("suggestions", .arr [])])) }

/-- C4 counterexample: the claim "if the query embedding's length
differs from the configured embedding dimension the query fails with
SchemaMismatch before any vector search" fails: no dimension check
exists in `search_tools` — with a 2-element embedding against a
768-dimension fingerprint, the vector search is still issued and the
call succeeds. -/
theorem search_tools_no_dimension_check :
    cfg_dim.index_dimension = some 768 ∧
    env_mismatch.embed_result cfg_dim.embedding_model (strRunes "x") = .ok [1, 2] ∧
    ([1, 2] : List Int).length ≠ 768 ∧
    search_tools env_mismatch (strRunes "x") 3 =
      (.ok [⟨"ls", "1", "list directory contents", 0⟩],
       [.embedRequest "nomic-embed-text" (strRunes "x"), .searchRequest [1, 2] 3]) :=
  ⟨rfl, rfl, by decide, rfl⟩

/-- C4 (amended): after the query embedding is generated,
`search_tools` performs no dimension check: whatever the embedding's
length, it is passed directly to the vector search, and the configured
`embedding_dimension` is never consulted.  A mismatch can surface only
as a backend error of the search itself. -/
theorem search_tools_searches_any_dimension (env : QueryEnv) (query : Str)
    (limit : Nat) (config : Config) (v : List Int)
    (hexists : env.index_exists = .ok true)
    (hconfig : env.load_config = .ok config)
    (hreb : config.needs_index_rebuild = false)
    (hlast : config.index.last_embedding_model.isSome = true)
    (hclient : env.client_create_ok = true)
    (hembed : env.embed_result config.embedding_model query = .ok v) :
    (search_tools env query limit).2 =
      [.embedRequest config.embedding_model query, .searchRequest v limit] := by
  have hnone : config.index.last_embedding_model.isNone = false := by
    cases h : config.index.last_embedding_model with
    | none => rw [h] at hlast; simp at hlast
    | some m => simp
  simp only [search_tools, hexists, hconfig, hreb, hnone, hclient, hembed,
    Bool.false_eq_true, if_false, not_true, Option.isNone_iff_eq_none]
  cases hs : env.search_result v limit <;> simp [hs]

/-- C4 witness: the no-dimension-check theorem applied to the concrete
mismatching environment. -/
theorem search_tools_searches_any_dimension_witness :
    (search_tools env_mismatch (strRunes "y") 5).2 =
      [.embedRequest "nomic-embed-text" (strRunes "y"), .searchRequest [1, 2] 5] :=
  search_tools_searches_any_dimension env_mismatch (strRunes "y") 5 cfg_dim [1, 2]
    rfl rfl rfl rfl rfl rfl

/-- C1: the text-generation step of `process_query` calls `generate`
with the hard-coded `DEFAULT_MODEL` (`"llama3"`), not with the loaded
configuration's `llm_model` (`"llama3.2:3b"` here), while prompt and
`json_mode = true` match the specification.  Evaluated at a concrete
environment in which every step succeeds. -/
theorem process_query_generate_uses_default_model :
    env_mismatch.load_config = .ok cfg_dim ∧
    process_query env_mismatch (strRunes "x") =
      (.ok [],
       [.embedRequest "nomic-embed-text" (strRunes "x"),
        .searchRequest [1, 2] 3,
        .manCommand "ls",
        .generateRequest "llama3"
          (build_prompt (strRunes "x")
            (truncate_content (clean_escape_sequences (strRunes "NAME\n ls - list\n"))
              MAX_CONTENT_LENGTH)
            (strRunes "No specific project type detected")) true]) ∧
    cfg_dim.llm_model = "llama3.2:3b" ∧ DEFAULT_MODEL = "llama3" ∧
    DEFAULT_MODEL ≠ cfg_dim.llm_model :=
  ⟨rfl, rfl, rfl, rfl, by decide⟩

/-! ## Indexing orchestration (`src/setup/mod.rs`, `run_indexing`) -/

/-- The persistence-relevant events of an indexing run, in order:
scan completed, config fingerprint written (`save_config` after
`update_index_metadata`), tracker file saved (`metadata.save()` after
`update_hashes`), vector index created (`db::create_index`). -/
inductive IndexEvent where
  | scanned (count : Nat)
  | configFingerprintSaved (dimension : Nat) (model : String)
  | metadataSaved
  | indexCreated (entries : Nat)
deriving DecidableEq

/-- Oracle environment for `run_indexing`: scan outcome, loaded tracker
(`IndexMetadata::load().unwrap_or_default()`), file existence (for
`remove_deleted`), content hashing, the pipelined embedding stage
(whose body `generate_embeddings_pipelined` is not in the source
snapshot; its outcome is an oracle), config load, and the success of
the three persistence steps. -/
structure IndexEnv where
  scan_result : Except Unit (List String)
  metadata_files : FileHashes
  file_exists : String → Bool
  hash : String → Option String
  embeddings_result : List String → Except Unit (List ManpageEntry)
  load_config : Except Unit Config
  save_config_ok : Bool
  metadata_save_ok : Bool
  create_index_ok : Bool

/-- The tracker map after `metadata.remove_deleted()`: entries whose
paths no longer exist are dropped. -/
def tracker_after_prune (env : IndexEnv) : FileHashes :=
  fun p => if env.file_exists p then env.metadata_files p else none

/-- `run_indexing` from `src/setup/mod.rs`: scan, prune and filter the
tracker, run the embedding pipeline on the changed paths, then — when
at least one entry was produced — write the config fingerprint, save
the tracker (after `update_hashes`), and only then create the vector
index.  Returns the result and the ordered event trace. -/
def run_indexing (env : IndexEnv) : Except Unit Nat × List IndexEvent :=
  match env.scan_result with
  | .error _ => (.error (), [])
  | .ok all_paths =>
    if all_paths.length = 0 then (.ok 0, [.scanned 0])
    else
      if (filter_changed env.hash (tracker_after_prune env) all_paths).1.length = 0 then
        (.ok (filter_changed env.hash (tracker_after_prune env) all_paths).2,
         [.scanned all_paths.length])
      else
        match env.embeddings_result
            (filter_changed env.hash (tracker_after_prune env) all_paths).1 with
        | .error _ => (.error (), [.scanned all_paths.length])
        | .ok entries =>
          match entries.head? with
          | some first_entry =>
            match env.load_config with
            | .error _ => (.error (), [.scanned all_paths.length])
            | .ok config =>
              if ¬ env.save_config_ok then (.error (), [.scanned all_paths.length])
              else if ¬ env.metadata_save_ok then
                (.error (),
                 [.scanned all_paths.length,
                  .configFingerprintSaved first_entry.vector.length
                    config.models.embedding_model])
              else if ¬ env.create_index_ok then
                (.error (),
                 [.scanned all_paths.length,
                  .configFingerprintSaved first_entry.vector.length
                    config.models.embedding_model,
                  .metadataSaved])
              else
                (.ok entries.length,
                 [.scanned all_paths.length,
                  .configFingerprintSaved first_entry.vector.length
                    config.models.embedding_model,
                  .metadataSaved,
                  .indexCreated entries.length])
          | none =>
            if ¬ env.metadata_save_ok then (.error (), [.scanned all_paths.length])
            else if ¬ env.create_index_ok then
              (.error (), [.scanned all_paths.length, .metadataSaved])
            else
              (.ok entries.length,
               [.scanned all_paths.length, .metadataSaved, .indexCreated entries.length])

/-- C9: in every completed indexing run that produces at least one
embedded entry, the persistence steps occur in this order: the config
fingerprint (dimension of the first entry's vector and the embedding
model name) is written first, then the change tracker is saved, and
only after that is the vector index created. -/
theorem run_indexing_persistence_order (env : IndexEnv) (all_paths : List String)
    (entries : List ManpageEntry) (first_entry : ManpageEntry) (config : Config)
    (hscan : env.scan_result = .ok all_paths)
    (hne : all_paths.length ≠ 0)
    (htodo : (filter_changed env.hash (tracker_after_prune env) all_paths).1.length ≠ 0)
    (hembed : env.embeddings_result
      (filter_changed env.hash (tracker_after_prune env) all_paths).1 = .ok entries)
    (hhead : entries.head? = some first_entry)
    (hconfig : env.load_config = .ok config)
    (hsave : env.save_config_ok = true)
    (hmeta : env.metadata_save_ok = true)
    (hcreate : env.create_index_ok = true) :
    run_indexing env =
      (.ok entries.length,
       [.scanned all_paths.length,
        .configFingerprintSaved first_entry.vector.length config.models.embedding_model,
        .metadataSaved,
        .indexCreated entries.length]) := by
  simp only [run_indexing, hscan, hembed, hhead, hconfig, hsave, hmeta, hcreate,
    if_neg hne, if_neg htodo, not_true, if_false]

/-- C9 witness: the ordering theorem applied to a concrete completed
run over one new manpage. -/
theorem run_indexing_persistence_order_witness :
    run_indexing
      { scan_result := .ok ["/usr/share/man/man1/ls.1"],
        metadata_files := fun _ => none, file_exists := fun _ => true,
        hash := fun _ => some "h",
        embeddings_result := fun _ => .ok [⟨"ls", "1", strRunes "ls - list", [1, 2]⟩],
        load_config := .ok cfg_dim, save_config_ok := true,
        metadata_save_ok := true, create_index_ok := true } =
      (.ok 1,
       [.scanned 1, .configFingerprintSaved 2 "nomic-embed-text",
        .metadataSaved, .indexCreated 1]) :=
  run_indexing_persistence_order _ ["/usr/share/man/man1/ls.1"]
    [⟨"ls", "1", strRunes "ls - list", [1, 2]⟩] ⟨"ls", "1", strRunes "ls - list", [1, 2]⟩
    cfg_dim rfl (by decide) (by decide) rfl rfl rfl rfl rfl rfl

/-! ## Interactive selector (`src/tui/mod.rs`, `src/tui/input.rs`) -/

/-- `App` from `src/tui/mod.rs`. -/
structure App where
  suggestions : List CommandSuggestion
  selected : Nat
  status_message : Option String

/-- `App::new`. -/
def App.new (suggestions : List CommandSuggestion) : App :=
  { suggestions := suggestions, selected := 0, status_message := none }

/-- `App::clear_status`. -/
def App.clear_status (app : App) : App := { app with status_message := none }

/-- `App::select_previous` (wrap-around decrement, no-op when empty). -/
def App.select_previous (app : App) : App :=
  if app.suggestions.isEmpty then app
  else if app.selected = 0 then { app with selected := app.suggestions.length - 1 }
  else { app with selected := app.selected - 1 }

/-- `App::select_next` (wrap-around increment, no-op when empty). -/
def App.select_next (app : App) : App :=
  if app.suggestions.isEmpty then app
  else { app with selected := (app.selected + 1) % app.suggestions.length }

/-- `App::selected_suggestion`. -/
def App.selected_suggestion (app : App) : Option CommandSuggestion :=
  app.suggestions.get? app.selected

/-- The selection-state-changing inputs of `handle_key`
(`src/tui/input.rs`): Up/`k`, Down/`j`, and a digit key carrying its
numeric value. -/
inductive SelKey where
  | up
  | down
  | digit (num : Nat)

/-- The state transition of `handle_key` for selection-changing keys:
any key press first clears the status message; a digit `num` selects
`num - 1` only when `1 ≤ num ≤ suggestions.len()`. -/
def handle_sel_key (app : App) : SelKey → App
  | .up => app.clear_status.select_previous
  | .down => app.clear_status.select_next
  | .digit num =>
    if 0 < num ∧ num ≤ app.suggestions.length then
      { app.clear_status with selected := num - 1 }
    else app.clear_status

/-- A sequence of selection inputs applied from left to right. -/
def apply_keys (app : App) (keys : List SelKey) : App :=
  keys.foldl handle_sel_key app

theorem handle_sel_key_suggestions (app : App) (k : SelKey) :
    (handle_sel_key app k).suggestions = app.suggestions := by
  cases k <;>
    simp only [handle_sel_key, App.clear_status, App.select_previous, App.select_next] <;>
    split_ifs <;> rfl

theorem handle_sel_key_inv (app : App) (k : SelKey)
    (hinv : app.selected < app.suggestions.length ∨
      (app.suggestions = [] ∧ app.selected = 0)) :
    (handle_sel_key app k).selected < (handle_sel_key app k).suggestions.length ∨
      ((handle_sel_key app k).suggestions = [] ∧ (handle_sel_key app k).selected = 0) := by
  cases k with
  | up =>
    simp only [handle_sel_key, App.clear_status, App.select_previous]
    rcases hinv with hlt | ⟨hempty, hzero⟩
    · have hne : ¬ app.suggestions.isEmpty := by
        cases h : app.suggestions with
        | nil => rw [h] at hlt; simp at hlt
        | cons a l => simp [h]
      rw [if_neg (by simp_all)]
      split_ifs <;> left <;> simp <;> omega
    · rw [if_pos (by simp [hempty])]
      exact Or.inr ⟨hempty, hzero⟩
  | down =>
    simp only [handle_sel_key, App.clear_status, App.select_next]
    rcases hinv with hlt | ⟨hempty, hzero⟩
    · rw [if_neg (by cases h : app.suggestions with
        | nil => rw [h] at hlt; simp at hlt
        | cons a l => simp [h])]
      left
      simp
      exact Nat.mod_lt _ (by omega)
    · rw [if_pos (by simp [hempty])]
      exact Or.inr ⟨hempty, hzero⟩
  | digit num =>
    simp only [handle_sel_key, App.clear_status]
    split_ifs with hcond
    · left; simp; omega
    · simpa using hinv

theorem apply_keys_inv (keys : List SelKey) (app : App)
    (hinv : app.selected < app.suggestions.length ∨
      (app.suggestions = [] ∧ app.selected = 0)) :
    (apply_keys app keys).selected < (apply_keys app keys).suggestions.length ∨
      ((apply_keys app keys).suggestions = [] ∧ (apply_keys app keys).selected = 0) := by
  induction keys generalizing app with
  | nil => simpa [apply_keys] using hinv
  | cons k rest ih =>
    have h1 := handle_sel_key_inv app k hinv
    simpa [apply_keys] using ih (handle_sel_key app k) h1

theorem apply_keys_suggestions (keys : List SelKey) (app : App) :
    (apply_keys app keys).suggestions = app.suggestions := by
  induction keys generalizing app with
  | nil => rfl
  | cons k rest ih =>
    simp [apply_keys] at ih ⊢
    rw [ih (handle_sel_key app k), handle_sel_key_suggestions]

/-- C10: starting from a fresh `App`, any sequence of
`select_next`/`select_previous`/digit inputs keeps `selected` strictly
below the number of suggestions whenever that number is non-zero; and
with an empty suggestion list the operations leave `selected` at `0`
and `selected_suggestion` returns `none`. -/
theorem app_selected_in_bounds (suggestions : List CommandSuggestion)
    (keys : List SelKey) :
    (suggestions ≠ [] →
      (apply_keys (App.new suggestions) keys).selected < suggestions.length) ∧
    (suggestions = [] →
      (apply_keys (App.new suggestions) keys).selected = 0 ∧
      (apply_keys (App.new suggestions) keys).selected_suggestion = none) := by
  have hsugg := apply_keys_suggestions keys (App.new suggestions)
  have hinv := apply_keys_inv keys (App.new suggestions) (by
    cases h : suggestions with
    | nil => exact Or.inr ⟨by simp [App.new, h], rfl⟩
    | cons a l => exact Or.inl (by simp [App.new, h]))
  constructor
  · intro hne
    rcases hinv with hlt | ⟨hempty, _⟩
    · rwa [hsugg] at hlt
    · rw [hsugg] at hempty; simp [App.new] at hempty; exact absurd hempty hne
  · intro hempty
    rcases hinv with hlt | ⟨_, hzero⟩
    · rw [hsugg] at hlt; simp [App.new, hempty] at hlt
    · refine ⟨hzero, ?_⟩
      rw [App.selected_suggestion]
      rw [hsugg]
      simp [App.new, hempty]

/-- C10 witness: the bound applied after a concrete input sequence on a
two-element suggestion list. -/
theorem app_selected_in_bounds_witness :
    (apply_keys (App.new
      [{ command := "ls -la", title := "List files", explanation := "Lists all files",
         risk_level := .safe },
       { command := "pwd", title := "Print dir", explanation := "Prints cwd",
         risk_level := .safe }])
      [.down, .down, .up, .digit 2, .digit 9]).selected < 2 :=
  (app_selected_in_bounds _ [.down, .down, .up, .digit 2, .digit 9]).1 (by simp)
